import Mathlib

/-!
# Verification of the SE333 testing-tools server (`test_tools.py`)

Shallow embedding of the four core tool operations:

* `run_maven_tests` — returns a bounded tail of the build subprocess output;
* `summarize_coverage` — probes candidate JaCoCo report paths and renders one
  percentage line per root-level `counter` element;
* `suggest_junit_tests_for_class` — resolves a dotted class name to a source
  path, scans the file with the method regex, and emits a JUnit skeleton;
* `suggest_boundary_tests` — a fixed nine-category checklist parameterized
  only by the description string.

Environment effects are made explicit: the subprocess outcome is an
`Except launchError (stdout, stderr)` value, and the filesystem is an
association list from paths to read/parse outcomes (a key being present
models `os.path.exists`, and an `.error` value models an exception raised
while reading or parsing that file).  Python's `round(x, 1)` on the exact
quotient is modelled over `ℚ` with round-half-to-even.
-/

/-! ## Method-extraction regex

`re.compile(r"public\s+(static\s+)?[<>\w\[\]]+\s+(\w+)\s*\(", re.MULTILINE)`
scanned over the whole file with `finditer`.  The character classes of
adjacent quantified pieces are pairwise disjoint (`\s` never overlaps
`[<>\w\[\]]`, `\w`, or the literal parenthesis), so greedy matching with
backtracking is equivalent to maximal-run matching; the only remaining
choice point is the optional `(static\s+)?` group, which Python prefers to
take and abandons on failure of the remainder.  The matcher below
implements exactly that. -/

/-- Python `\s` over the ASCII range: space, tab, newline, carriage return,
vertical tab, form feed. -/
def isSpaceCh (c : Char) : Bool :=
  c == ' ' || c == '\t' || c == '\n' || c == '\r' || c == '\x0b' || c == '\x0c'

/-- Python `\w` over the ASCII range: letters, digits, underscore. -/
def isWordCh (c : Char) : Bool :=
  c.isAlphanum || c == '_'

/-- The character class `[<>\w\[\]]` used for the return-type token. -/
def isTypeCh (c : Char) : Bool :=
  c == '<' || c == '>' || isWordCh c || c == '[' || c == ']'

/-- Match a literal character sequence at the head of the input, returning
the rest of the input. -/
def dropLit : List Char → List Char → Option (List Char)
  | [], cs => some cs
  | _ :: _, [] => none
  | l :: ls, c :: cs => if c = l then dropLit ls cs else none

/-- Match one-or-more characters of class `p` (greedy), returning the rest. -/
def dropPlus (p : Char → Bool) : List Char → Option (List Char)
  | [] => none
  | c :: cs => if p c then some (cs.dropWhile p) else none

/-- Match the suffix `[<>\w\[\]]+\s+(\w+)\s*\(` of the method regex,
returning the captured method name and the input remaining after the
opening parenthesis (the end of the whole match). -/
def matchTail (cs : List Char) : Option (String × List Char) :=
  match dropPlus isTypeCh cs with
  | none => none
  | some v1 =>
    match dropPlus isSpaceCh v1 with
    | none => none
    | some v2 =>
      let name := v2.takeWhile isWordCh
      if name.isEmpty then none
      else
        match (v2.dropWhile isWordCh).dropWhile isSpaceCh with
        | '(' :: v5 => some (String.mk name, v5)
        | _ => none

/-- Match the full pattern `public\s+(static\s+)?[<>\w\[\]]+\s+(\w+)\s*\(`
at the head of `cs`.  The optional `static` group is tried first and
abandoned if the rest of the pattern then fails, matching Python's
backtracking preference order. -/
def matchPublicAt (cs : List Char) : Option (String × List Char) :=
  match dropLit "public".data cs with
  | none => none
  | some s1 =>
    match dropPlus isSpaceCh s1 with
    | none => none
    | some s2 =>
      match dropLit "static".data s2 with
      | some t1 =>
        match dropPlus isSpaceCh t1 with
        | some t2 =>
          match matchTail t2 with
          | some r => some r
          | none => matchTail s2
        | none => matchTail s2
      | none => matchTail s2

/-- Fuelled scan implementing `re.finditer`: try the pattern at each
position left to right, resuming after the end of each (non-overlapping)
match.  Every successful match consumes at least the literal `public`, so
fuel equal to the input length never runs out. -/
def scanFuel : Nat → List Char → List String
  | 0, _ => []
  | _ + 1, [] => []
  | fuel + 1, c :: rest =>
    match matchPublicAt (c :: rest) with
    | some (name, rem) => name :: scanFuel fuel rem
    | none => scanFuel fuel rest

/-- All captured method names of the regex scan, in match order. -/
def findCaptures (cs : List Char) : List String := scanFuel cs.length cs

/-- Executable lexicographic (code-point) comparison of character lists. -/
def charListLeb : List Char → List Char → Bool
  | [], _ => true
  | _ :: _, [] => false
  | a :: as, b :: bs =>
    if a < b then true
    else if b < a then false
    else charListLeb as bs

/-- Executable lexicographic comparison of strings — the order Python's
`sorted` uses on `str` (code-point by code-point). -/
def strLeb (a b : String) : Bool := charListLeb a.data b.data

/-- `sorted(set(m.group(2) for m in method_pattern.finditer(src)))`:
the captured names, deduplicated and sorted lexicographically ascending. -/
def extractedMethodNames (src : String) : List String :=
  List.insertionSort (fun a b => strLeb a b) (findCaptures src.data).dedup

/-! ## Path construction

`PROJECT_ROOT = os.path.dirname(__file__)` is opaque to the program text, so
the embedding takes it as the parameter `root`; `os.sep`/`os.path.join` are
modelled for the POSIX branch (`os.name != "nt"`) with separator `/`. -/

def pathJoin (a b : String) : String := a ++ "/" ++ b

/-- `os.path.join(project_root, "codebase")`. -/
def codebaseDir (root : String) : String := pathJoin root "codebase"

/-- `class_name.replace(".", os.sep)`. -/
def dotToSep (s : String) : String :=
  String.mk (s.data.map fun c => if c = '.' then '/' else c)

/-- The relative source path derived from a class name: dots replaced by the
path separator if the name is dotted, then a `.java` suffix appended. -/
def pkgPath (class_name : String) : String :=
  if class_name.data.contains '.' then dotToSep class_name ++ ".java"
  else class_name ++ ".java"

/-- `os.path.join(codebase_dir, "src", "main", "java", pkg_path)` — the one
path probed for the class's source file. -/
def classCandidate (root class_name : String) : String :=
  pathJoin (pathJoin (pathJoin (pathJoin (codebaseDir root) "src") "main") "java")
    (pkgPath class_name)

/-! ## Skeleton generator -/

/-- The characters after the last `'.'` (the whole list when no dot
occurs). -/
def afterLastDot (cs : List Char) : List Char :=
  (cs.reverse.takeWhile (fun c => !(c == '.'))).reverse

/-- `class_name.split('.')[-1]`: the simple class name, i.e. the segment
after the last dot (the whole name when it has no dot). -/
def simpleClassName (class_name : String) : String :=
  String.mk (afterLastDot class_name.data)

/-- The eight lines appended for one method name inside the generated test
class (lines 146–154 of `test_tools.py`). -/
def methodSkeleton (class_name m : String) : List String :=
  [ "    @Test",
    "    public void test_" ++ m ++ "() \x7b",
    "        // TODO: arrange inputs",
    "        // " ++ class_name ++ " obj = new " ++ simpleClassName class_name ++ "();",
    "        // Object result = obj." ++ m ++ "(/* args */);",
    "        // assertNotNull(result);",
    "    \x7d",
    "" ]

/-- The full line list of the generated skeleton text block. -/
def skeletonLines (class_name : String) (methods : List String) : List String :=
  [ "Suggested JUnit 4 test skeletons for " ++ class_name ++ ":",
    "",
    "```java",
    "import org.junit.Test;",
    "import static org.junit.Assert.*;",
    "import " ++ class_name ++ ";",
    "",
    "public class " ++ simpleClassName class_name ++ "GeneratedTest \x7b",
    "" ]
  ++ methods.flatMap (methodSkeleton class_name)
  ++ [ "\x7d", "```" ]

/-- The part of `suggest_junit_tests_for_class` after the source file has
been read successfully: regex scan, dedup + sort, then either the
no-methods message or the skeleton block. -/
def suggestBody (class_name src : String) : String :=
  let methods := extractedMethodNames src
  if methods.isEmpty then "No public methods found in " ++ class_name ++ "."
  else String.intercalate "\n" (skeletonLines class_name methods)

/-- `suggest_junit_tests_for_class`.  `files` is the filesystem: a path is
present iff `os.path.exists` holds, its value being the file content
(`.ok`) or the exception message raised while reading it (`.error`). -/
def suggest_junit_tests_for_class (files : List (String × Except String String))
    (root class_name : String) : String :=
  let candidate := classCandidate root class_name
  match files.lookup candidate with
  | none =>
      "Could not find source file for " ++ class_name ++ ".\nI looked for: " ++ candidate
  | some (.error e) => "Error reading " ++ candidate ++ ": " ++ e
  | some (.ok src) => suggestBody class_name src

/-! ## Build runner -/

/-- Python `s[-n:]`: the final `n` characters of `s` (all of `s` when it is
shorter than `n`). -/
def lastChars (n : Nat) (s : String) : String :=
  String.mk (s.data.drop (s.data.length - n))

/-- `run_maven_tests`.  The subprocess outcome is `.ok (stdout, stderr)`
when the launch succeeds (any exit status), and `.error e` when launching
raises an exception with message `e`.  `result.stdout[-2000:] or
result.stderr[-2000:]` returns the stdout tail if non-empty, else the
stderr tail. -/
def run_maven_tests (outcome : Except String (String × String)) : String :=
  match outcome with
  | .error e => "Error running mvn test: " ++ e
  | .ok (out, err) =>
    let t := lastChars 2000 out
    if t = "" then lastChars 2000 err else t

/-! ## Coverage summarizer -/

/-- Round-half-to-even on an exact rational — the rounding rule of Python's
builtin `round`. -/
def roundHalfEven (q : ℚ) : ℤ :=
  if q - ⌊q⌋ = 1 / 2 then (if ⌊q⌋ % 2 = 0 then ⌊q⌋ else ⌊q⌋ + 1) else round q

/-- Python `round(q, 1)` on the exact quotient: round `q * 10` half-to-even
to an integer, then divide by ten. -/
def pyRound1 (q : ℚ) : ℚ := (roundHalfEven (q * 10) : ℚ) / 10

/-- `total = covered + missed`. -/
def counterTotal (covered missed : ℤ) : ℤ := covered + missed

/-- `pct = 0.0 if total == 0 else round(covered * 100.0 / total, 1)`. -/
def counterPct (covered missed : ℤ) : ℚ :=
  if counterTotal covered missed = 0 then 0
  else pyRound1 ((covered : ℚ) * 100 / (counterTotal covered missed : ℚ))

/-- The rounded percentage scaled by ten, as an integer (the digits that the
percentage prints with). -/
def pctT10 (covered missed : ℤ) : ℤ :=
  if counterTotal covered missed = 0 then 0
  else roundHalfEven ((covered : ℚ) * 100 / (counterTotal covered missed : ℚ) * 10)

/-- One root-level `counter` element of the report, after attribute lookup
and `int()` conversion: `type` may be absent (`counter.get("type")` returns
`None`), `covered`/`missed` default to `0` when absent. -/
structure Counter where
  ctype : Option String
  covered : ℤ
  missed : ℤ
deriving DecidableEq

/-- Rendering of `counter.get("type")` inside the f-string: an absent
attribute prints as `None`. -/
def optTypeStr : Option String → String
  | none => "None"
  | some s => s

/-- Decimal rendering of a one-decimal percentage from its value scaled by
ten, as Python formats the float (`90.0`, `6.2`, `-1.5`). -/
def decimalString (n : ℤ) : String :=
  if n < 0 then "-" ++ (toString (n.natAbs / 10) ++ "." ++ toString (n.natAbs % 10))
  else toString (n.toNat / 10) ++ "." ++ toString (n.toNat % 10)

/-- `f"- {ctype}: {pct}% ({covered}/{total} covered)"`. -/
def counterLine (c : Counter) : String :=
  "- " ++ optTypeStr c.ctype ++ ": " ++ decimalString (pctT10 c.covered c.missed)
    ++ "% (" ++ toString c.covered ++ "/" ++ toString (counterTotal c.covered c.missed)
    ++ " covered)"

/-- `os.path.join(codebase_dir, "target", "site", "jacoco", "jacoco.xml")`. -/
def jacocoPath1 (root : String) : String :=
  pathJoin (pathJoin (pathJoin (pathJoin (codebaseDir root) "target") "site") "jacoco")
    "jacoco.xml"

/-- `os.path.join(codebase_dir, "target", "jacoco.xml")` — the fallback. -/
def jacocoPath2 (root : String) : String :=
  pathJoin (pathJoin (codebaseDir root) "target") "jacoco.xml"

/-- The two candidate report paths, in probe order. -/
def jacocoCandidates (root : String) : List String :=
  [jacocoPath1 root, jacocoPath2 root]

/-- The `for p in candidates: if os.path.exists(p)` probe loop: the first
existing candidate path together with its parse outcome. -/
def probeReport (files : List (String × Except String (List Counter))) :
    List String → Option (String × Except String (List Counter))
  | [] => none
  | p :: ps =>
    match files.lookup p with
    | some v => some (p, v)
    | none => probeReport files ps

/-- The diagnostic returned when no candidate path exists. -/
def reportNotFoundMsg (root : String) : String :=
  "JaCoCo report not found in expected locations.\nI looked for:\n"
    ++ String.intercalate "\n" ((jacocoCandidates root).map (fun p => "  - " ++ p))
    ++ "\n\nRun `run_maven_tests` or `mvn clean test jacoco:report` first."

/-- `summarize_coverage`.  `files` maps an existing report path to its parse
outcome: `.ok cs` gives the list of `counter` elements that are direct
children of the document root, in document order (`root.findall("counter")`),
already attribute-converted; `.error e` models an exception raised inside
the `try` block (malformed XML, unreadable file, bad `int()` conversion). -/
def summarize_coverage (files : List (String × Except String (List Counter)))
    (root : String) : String :=
  match probeReport files (jacocoCandidates root) with
  | none => reportNotFoundMsg root
  | some (_, .error e) => "Error reading JaCoCo report: " ++ e
  | some (p, .ok cs) =>
      String.intercalate "\n"
        (("JaCoCo coverage summary from: " ++ p) :: cs.map counterLine)

/-! ## Boundary heuristic catalog -/

/-- The fixed tail of the boundary checklist: every line after the header,
independent of the description. -/
def boundaryRest : List String :=
  [ "",
    "1. Typical in-range values",
    "   - Use normal, expected inputs to confirm the main behavior.",
    "",
    "2. Lower boundary",
    "   - Inputs exactly at the minimum allowed (e.g., min, 0, empty string).",
    "   - Check that the method still behaves correctly and does not throw.",
    "",
    "3. Just below lower boundary",
    "   - Inputs slightly below the allowed minimum (e.g., min-1, -1).",
    "   - Expect an exception or clear error behavior if the API specifies it.",
    "",
    "4. Upper boundary",
    "   - Inputs exactly at the maximum allowed (e.g., max, length-1).",
    "   - Ensure no off-by-one errors.",
    "",
    "5. Just above upper boundary",
    "   - Inputs slightly above the maximum allowed (e.g., max+1, length).",
    "   - Expect failure or a well-defined response.",
    "",
    "6. Null / empty / default values",
    "   - Null arguments, empty collections, empty strings, zero-length ranges.",
    "   - Check whether the method allows them or throws.",
    "",
    "7. Degenerate / special cases",
    "   - low == high, start == end, negative ranges, NaN, infinities.",
    "   - For comparisons, equal values and reversed bounds.",
    "",
    "8. Large inputs",
    "   - Very large numbers, long strings, big collections.",
    "   - Look for overflow, performance, or memory issues.",
    "",
    "9. Invalid combinations",
    "   - Start > end, low > high, incompatible flags.",
    "   - Ensure clear error handling or documented behavior.",
    "",
    "Use these categories to design concrete JUnit tests for this API." ]

/-- The `ideas` line list built by `suggest_boundary_tests`. -/
def boundaryIdeas (description : String) : List String :=
  ("Boundary test ideas for: " ++ description) :: boundaryRest

/-- `suggest_boundary_tests`: the checklist joined with newlines. -/
def suggest_boundary_tests (description : String) : String :=
  String.intercalate "\n" (boundaryIdeas description)

/-! ## Helper lemmas -/

theorem length_dropWhile_le (p : Char → Bool) (l : List Char) :
    (l.dropWhile p).length ≤ l.length := by
  induction l with
  | nil => simp [List.dropWhile]
  | cons c cs ih =>
    by_cases h : p c
    · simp only [List.dropWhile, h]
      exact Nat.le_trans ih (Nat.le_succ _)
    · simp [List.dropWhile, h]

theorem dropLit_length_le {lit cs rest : List Char} (h : dropLit lit cs = some rest) :
    rest.length + lit.length = cs.length := by
  induction lit generalizing cs with
  | nil =>
    cases h
    simp
  | cons l ls ih =>
    cases cs with
    | nil => exact absurd h (by simp [dropLit])
    | cons c cs' =>
      simp only [dropLit] at h
      by_cases hc : c = l
      · rw [if_pos hc] at h
        have := ih h
        simp only [List.length_cons]
        omega
      · rw [if_neg hc] at h
        exact absurd h (by simp)

theorem dropPlus_length_lt {p : Char → Bool} {cs rest : List Char}
    (h : dropPlus p cs = some rest) : rest.length < cs.length := by
  cases cs with
  | nil => exact absurd h (by simp [dropPlus])
  | cons c cs' =>
    simp only [dropPlus] at h
    by_cases hc : p c
    · rw [if_pos hc] at h
      cases h
      simp only [List.length_cons]
      exact Nat.lt_succ_of_le (length_dropWhile_le p cs')
    · rw [if_neg hc] at h
      exact absurd h (by simp)

theorem matchTail_length_lt {cs rem : List Char} {n : String}
    (h : matchTail cs = some (n, rem)) : rem.length < cs.length := by
  unfold matchTail at h
  cases h1 : dropPlus isTypeCh cs with
  | none => rw [h1] at h; exact absurd h (by simp)
  | some v1 =>
    rw [h1] at h
    simp only at h
    cases h2 : dropPlus isSpaceCh v1 with
    | none => rw [h2] at h; exact absurd h (by simp)
    | some v2 =>
      rw [h2] at h
      simp only at h
      by_cases he : (v2.takeWhile isWordCh).isEmpty
      · rw [if_pos he] at h
        exact absurd h (by simp)
      · rw [if_neg he] at h
        split at h
        · rename_i v5 heq
          simp only [Option.some.injEq, Prod.mk.injEq] at h
          obtain ⟨-, hrem⟩ := h
          have hle1 : ((v2.dropWhile isWordCh).dropWhile isSpaceCh).length ≤
              (v2.dropWhile isWordCh).length := length_dropWhile_le _ _
          have hle2 : (v2.dropWhile isWordCh).length ≤ v2.length :=
            length_dropWhile_le _ _
          rw [heq] at hle1
          simp only [List.length_cons] at hle1
          have h2l := dropPlus_length_lt h2
          have h1l := dropPlus_length_lt h1
          have : rem.length = v5.length := by rw [← hrem]
          omega
        · exact absurd h (by simp)

theorem matchPublicAt_length_lt {cs rem : List Char} {n : String}
    (h : matchPublicAt cs = some (n, rem)) : rem.length < cs.length := by
  unfold matchPublicAt at h
  cases h1 : dropLit "public".data cs with
  | none => rw [h1] at h; exact absurd h (by simp)
  | some s1 =>
    rw [h1] at h
    simp only at h
    have hs1 : s1.length ≤ cs.length := by
      have := dropLit_length_le h1
      omega
    cases h2 : dropPlus isSpaceCh s1 with
    | none => rw [h2] at h; exact absurd h (by simp)
    | some s2 =>
      rw [h2] at h
      simp only at h
      have hs2 : s2.length < s1.length := dropPlus_length_lt h2
      have hfin : ∀ {r : List Char}, matchTail s2 = some (n, r) → r.length < cs.length := by
        intro r hr
        have := matchTail_length_lt hr
        omega
      cases h3 : dropLit "static".data s2 with
      | none =>
        rw [h3] at h
        simp only at h
        exact hfin h
      | some t1 =>
        rw [h3] at h
        simp only at h
        have ht1 : t1.length ≤ s2.length := by
          have := dropLit_length_le h3
          omega
        cases h4 : dropPlus isSpaceCh t1 with
        | none =>
          rw [h4] at h
          simp only at h
          exact hfin h
        | some t2 =>
          rw [h4] at h
          simp only at h
          have ht2 : t2.length < t1.length := dropPlus_length_lt h4
          cases h5 : matchTail t2 with
          | none =>
            rw [h5] at h
            simp only at h
            exact hfin h
          | some r =>
            rw [h5] at h
            simp only at h
            obtain ⟨nm, rr⟩ := r
            simp only [Option.some.injEq, Prod.mk.injEq] at h
            obtain ⟨-, hrem⟩ := h
            have := matchTail_length_lt h5
            have : rem.length = rr.length := by rw [← hrem]
            omega

theorem charListLeb_iff (x y : List Char) :
    charListLeb x y = true ↔ ¬ List.Lex (· < ·) y x := by
  induction x generalizing y with
  | nil =>
    cases y <;> simp [charListLeb]
  | cons a as ih =>
    cases y with
    | nil =>
      simp [charListLeb]
      exact List.Lex.nil
    | cons b bs =>
      rcases lt_trichotomy a b with hab | hab | hab
      · simp only [charListLeb, if_pos hab, true_iff]
        intro h
        cases h with
        | rel h' => exact absurd hab (lt_asymm h')
        | cons h' => exact absurd rfl (ne_of_gt hab)
      · subst hab
        show (if a < a then true else if a < a then false else charListLeb as bs) = true ↔ _
        rw [if_neg (lt_irrefl a), if_neg (lt_irrefl a), ih bs]
        constructor
        · intro h hl
          cases hl with
          | rel h' => exact absurd h' (lt_irrefl a)
          | cons h' => exact h h'
        · intro h hl
          exact h (List.Lex.cons hl)
      · show (if a < b then true else if b < a then false else charListLeb as bs) = true ↔ _
        rw [if_neg (asymm hab), if_pos hab]
        simp only [Bool.false_eq_true, false_iff, not_not]
        exact List.Lex.rel hab

theorem strLeb_iff (a b : String) : strLeb a b = true ↔ a ≤ b := by
  rw [String.le_iff_toList_le]
  show charListLeb a.data b.data = true ↔ a.toList ≤ b.toList
  rw [charListLeb_iff]
  constructor
  · intro h
    exact not_lt.mp h
  · intro h
    exact not_lt.mpr h

theorem intercalate_go_acc (s : String) (l : List String) :
    ∀ acc a : String, String.intercalate.go (acc ++ a) s l =
      acc ++ String.intercalate.go a s l := by
  induction l with
  | nil => intro acc a; rfl
  | cons b bs ih =>
    intro acc a
    show String.intercalate.go (acc ++ a ++ s ++ b) s bs =
      acc ++ String.intercalate.go (a ++ s ++ b) s bs
    rw [String.append_assoc, String.append_assoc, ← String.append_assoc a s b]
    exact ih acc (a ++ s ++ b)

theorem intercalate_cons_cons (s a b : String) (l : List String) :
    String.intercalate s (a :: b :: l) = (a ++ s) ++ String.intercalate s (b :: l) := by
  show String.intercalate.go a s (b :: l) = (a ++ s) ++ String.intercalate.go b s l
  show String.intercalate.go (a ++ s ++ b) s l = (a ++ s) ++ String.intercalate.go b s l
  exact intercalate_go_acc s l (a ++ s) b

/-! ## Claim theorems -/

/-- C3: for every source file content, the method-name list produced by the
extractor is duplicate-free (duplicates collapsed, so a name captured twice
— e.g. two overloads — yields exactly one entry) and sorted
lexicographically ascending, regardless of declaration order; membership is
exactly membership among the regex captures. -/
theorem extracted_names_sorted_and_unique (src : String) :
    (extractedMethodNames src).Sorted (· ≤ ·) ∧
    (extractedMethodNames src).Nodup ∧
    (∀ name : String, name ∈ extractedMethodNames src ↔ name ∈ findCaptures src.data) ∧
    (∀ name : String, name ∈ findCaptures src.data →
      (extractedMethodNames src).count name = 1) := by
  haveI htot : IsTotal String (fun a b : String => strLeb a b = true) := by
    constructor
    intro a b
    rw [strLeb_iff, strLeb_iff]
    exact le_total a b
  haveI htrans : IsTrans String (fun a b : String => strLeb a b = true) := by
    constructor
    intro a b c hab hbc
    rw [strLeb_iff] at hab hbc ⊢
    exact le_trans hab hbc
  have hsorted := List.sorted_insertionSort (fun a b : String => strLeb a b = true)
    (findCaptures src.data).dedup
  have hperm := List.perm_insertionSort (fun a b : String => strLeb a b = true)
    (findCaptures src.data).dedup
  have hnodup : (extractedMethodNames src).Nodup :=
    hperm.nodup_iff.mpr (List.nodup_dedup _)
  have hmem : ∀ name : String,
      name ∈ extractedMethodNames src ↔ name ∈ findCaptures src.data := by
    intro name
    show name ∈ List.insertionSort (fun a b : String => strLeb a b = true)
      (findCaptures src.data).dedup ↔ _
    rw [hperm.mem_iff, List.mem_dedup]
  refine ⟨?_, hnodup, hmem, ?_⟩
  · exact hsorted.imp (fun h => (strLeb_iff _ _).mp h)
  · intro name hname
    exact List.count_eq_one_of_mem hnodup ((hmem name).mpr hname)

/-- C5: the suggestion output is a deterministic function of the class name
and the content (read outcome) of the one probed source file: two
filesystems that agree on that path produce byte-identical output. -/
theorem suggest_depends_only_on_probed_file
    (files₁ files₂ : List (String × Except String String)) (root class_name : String)
    (h : files₁.lookup (classCandidate root class_name) =
      files₂.lookup (classCandidate root class_name)) :
    suggest_junit_tests_for_class files₁ root class_name =
      suggest_junit_tests_for_class files₂ root class_name := by
  simp only [suggest_junit_tests_for_class]
  rw [h]

theorem suggest_depends_only_on_probed_file_witness :
    (([("other.txt", Except.ok "public int f(")] :
        List (String × Except String String)).lookup (classCandidate "" "X") =
      ([] : List (String × Except String String)).lookup (classCandidate "" "X")) ∧
    suggest_junit_tests_for_class [("other.txt", Except.ok "public int f(")] "" "X" =
      suggest_junit_tests_for_class [] "" "X" :=
  ⟨rfl, suggest_depends_only_on_probed_file _ _ "" "X" rfl⟩

/-- C7: when the derived file path for a class name does not exist, the
output is the not-found message, and it contains the exact probed path. -/
theorem class_not_found_message (files : List (String × Except String String))
    (root class_name : String)
    (h : files.lookup (classCandidate root class_name) = none) :
    suggest_junit_tests_for_class files root class_name =
      "Could not find source file for " ++ class_name ++ ".\nI looked for: "
        ++ classCandidate root class_name ∧
    (classCandidate root class_name).data <:+:
      (suggest_junit_tests_for_class files root class_name).data := by
  have h1 : suggest_junit_tests_for_class files root class_name =
      "Could not find source file for " ++ class_name ++ ".\nI looked for: "
        ++ classCandidate root class_name := by
    simp only [suggest_junit_tests_for_class, h]
  refine ⟨h1, ?_⟩
  rw [h1, String.data_append]
  exact ⟨("Could not find source file for " ++ class_name ++ ".\nI looked for: ").data,
    [], by simp⟩

theorem class_not_found_message_witness :
    (([] : List (String × Except String String)).lookup (classCandidate "R" "a.b.C") =
      none) ∧
    (suggest_junit_tests_for_class [] "R" "a.b.C" =
      "Could not find source file for " ++ "a.b.C" ++ ".\nI looked for: "
        ++ classCandidate "R" "a.b.C" ∧
    (classCandidate "R" "a.b.C").data <:+:
      (suggest_junit_tests_for_class [] "R" "a.b.C").data) :=
  ⟨rfl, class_not_found_message [] "R" "a.b.C" rfl⟩

/-- C8: for any two description strings the outputs of
`suggest_boundary_tests` share the same fixed tail — they differ only in
the header, which contains the description verbatim; the line list is the
header followed by the fixed `boundaryRest` catalog. -/
theorem boundary_output_fixed_except_header (d₁ d₂ : String) :
    suggest_boundary_tests d₁ =
      ("Boundary test ideas for: " ++ d₁) ++ ("\n" ++ String.intercalate "\n" boundaryRest) ∧
    suggest_boundary_tests d₂ =
      ("Boundary test ideas for: " ++ d₂) ++ ("\n" ++ String.intercalate "\n" boundaryRest) ∧
    boundaryIdeas d₁ = ("Boundary test ideas for: " ++ d₁) :: boundaryRest ∧
    d₁.data <:+: (suggest_boundary_tests d₁).data := by
  have key : ∀ d : String, suggest_boundary_tests d =
      ("Boundary test ideas for: " ++ d) ++ ("\n" ++ String.intercalate "\n" boundaryRest) := by
    intro d
    show String.intercalate "\n" (("Boundary test ideas for: " ++ d) :: boundaryRest) = _
    have hb : boundaryRest = "" :: boundaryRest.tail := rfl
    rw [hb, intercalate_cons_cons, String.append_assoc]
  refine ⟨key d₁, key d₂, rfl, ?_⟩
  rw [key d₁]
  simp only [String.data_append]
  exact ⟨"Boundary test ideas for: ".data, "\n".data ++ (String.intercalate "\n" boundaryRest).data,
    rfl⟩

theorem lastChars_data (s : String) :
    (lastChars 2000 s).data = s.data.drop (s.data.length - 2000) := by
  simp [lastChars]

theorem lastChars_length (s : String) :
    (lastChars 2000 s).data.length = min 2000 s.data.length := by
  rw [lastChars_data, List.length_drop]
  omega

theorem lastChars_eq_empty_iff (s : String) : lastChars 2000 s = "" ↔ s = "" := by
  constructor
  · intro hs
    have hd : s.data.drop (s.data.length - 2000) = [] := by
      have := congrArg String.data hs
      rwa [lastChars_data] at this
    rw [List.drop_eq_nil_iff] at hd
    have hz : s.data.length = 0 := by omega
    exact String.ext (List.length_eq_zero.mp hz)
  · intro hs
    subst hs
    rfl

/-- C2: on a successful launch the result is the last 2000 characters of
stdout when stdout is non-empty, else the last 2000 characters of stderr
(so a stdout longer than 2000 characters is truncated to exactly its final
2000 characters, `min 2000 · ` in length); a launch exception yields the
error string. -/
theorem maven_output_tail (out err e : String) :
    run_maven_tests (.ok (out, err)) =
      (if out = "" then lastChars 2000 err else lastChars 2000 out) ∧
    (run_maven_tests (.ok (out, err))).data =
      (if out = "" then err.data.drop (err.data.length - 2000)
       else out.data.drop (out.data.length - 2000)) ∧
    (run_maven_tests (.ok (out, err))).data.length =
      min 2000 (if out = "" then err.data.length else out.data.length) ∧
    run_maven_tests (.error e) = "Error running mvn test: " ++ e := by
  by_cases h : out = ""
  · subst h
    have hrun : run_maven_tests (.ok ("", err)) = lastChars 2000 err := by
      have h0 : lastChars 2000 "" = "" := rfl
      simp [run_maven_tests, h0]
    refine ⟨by rw [hrun, if_pos rfl], ?_, ?_, rfl⟩
    · rw [hrun, if_pos rfl]
      exact lastChars_data err
    · rw [hrun, if_pos rfl]
      exact lastChars_length err
  · have hne : lastChars 2000 out ≠ "" := fun hc => h ((lastChars_eq_empty_iff out).mp hc)
    have hrun : run_maven_tests (.ok (out, err)) = lastChars 2000 out := by
      simp [run_maven_tests, hne]
    refine ⟨by rw [hrun, if_neg h], ?_, ?_, rfl⟩
    · rw [hrun, if_neg h]
      exact lastChars_data out
    · rw [hrun, if_neg h]
      exact lastChars_length out

theorem data_infix_append (pre mid post : String) :
    mid.data <:+: (pre ++ mid ++ post).data := by
  refine ⟨pre.data, post.data, ?_⟩
  simp [String.data_append]

/-- C6: when neither candidate report path exists, `summarize_coverage`
returns (as plain text) the diagnostic that lists both exact candidate
paths and says to run the build / report step first. -/
theorem coverage_report_missing (files : List (String × Except String (List Counter)))
    (root : String)
    (h1 : files.lookup (jacocoPath1 root) = none)
    (h2 : files.lookup (jacocoPath2 root) = none) :
    summarize_coverage files root =
      "JaCoCo report not found in expected locations.\nI looked for:\n"
        ++ ((("  - " ++ jacocoPath1 root) ++ "\n") ++ ("  - " ++ jacocoPath2 root))
        ++ "\n\nRun `run_maven_tests` or `mvn clean test jacoco:report` first." ∧
    (jacocoPath1 root).data <:+: (summarize_coverage files root).data ∧
    (jacocoPath2 root).data <:+: (summarize_coverage files root).data := by
  have hp : probeReport files (jacocoCandidates root) = none := by
    simp [probeReport, jacocoCandidates, h1, h2]
  have hmsg : summarize_coverage files root = reportNotFoundMsg root := by
    simp [summarize_coverage, hp]
  have hexp : reportNotFoundMsg root =
      "JaCoCo report not found in expected locations.\nI looked for:\n"
        ++ ((("  - " ++ jacocoPath1 root) ++ "\n") ++ ("  - " ++ jacocoPath2 root))
        ++ "\n\nRun `run_maven_tests` or `mvn clean test jacoco:report` first." := by
    unfold reportNotFoundMsg jacocoCandidates
    simp only [List.map]
    rw [intercalate_cons_cons]
    rfl
  refine ⟨hmsg.trans hexp, ?_, ?_⟩
  · have hre : summarize_coverage files root =
        ("JaCoCo report not found in expected locations.\nI looked for:\n" ++ "  - ")
          ++ jacocoPath1 root
          ++ ("\n" ++ ("  - " ++ jacocoPath2 root)
              ++ "\n\nRun `run_maven_tests` or `mvn clean test jacoco:report` first.") := by
      rw [hmsg.trans hexp]
      apply String.ext
      simp only [String.data_append, List.append_assoc]
    rw [hre]
    exact data_infix_append _ _ _
  · have hre : summarize_coverage files root =
        ("JaCoCo report not found in expected locations.\nI looked for:\n"
            ++ (("  - " ++ jacocoPath1 root) ++ "\n") ++ "  - ")
          ++ jacocoPath2 root
          ++ "\n\nRun `run_maven_tests` or `mvn clean test jacoco:report` first." := by
      rw [hmsg.trans hexp]
      apply String.ext
      simp only [String.data_append, List.append_assoc]
    rw [hre]
    exact data_infix_append _ _ _

theorem coverage_report_missing_witness :
    (([] : List (String × Except String (List Counter))).lookup (jacocoPath1 "R") = none) ∧
    (([] : List (String × Except String (List Counter))).lookup (jacocoPath2 "R") = none) ∧
    (summarize_coverage [] "R" =
      "JaCoCo report not found in expected locations.\nI looked for:\n"
        ++ ((("  - " ++ jacocoPath1 "R") ++ "\n") ++ ("  - " ++ jacocoPath2 "R"))
        ++ "\n\nRun `run_maven_tests` or `mvn clean test jacoco:report` first." ∧
    (jacocoPath1 "R").data <:+: (summarize_coverage [] "R").data ∧
    (jacocoPath2 "R").data <:+: (summarize_coverage [] "R").data) :=
  ⟨rfl, rfl, coverage_report_missing [] "R" rfl rfl⟩

/-- C9: every execution fault modelled by the environment is converted to an
`Error <doing X>: <cause>` string at the call boundary — no exception
escapes; each operation is a total function into `String` by construction. -/
theorem faults_returned_as_error_strings
    (e₁ e₂ e₃ : String) (files : List (String × Except String (List Counter)))
    (files' : List (String × Except String String)) (root root' class_name p : String)
    (h : probeReport files (jacocoCandidates root) = some (p, .error e₂))
    (h' : files'.lookup (classCandidate root' class_name) = some (.error e₃)) :
    run_maven_tests (.error e₁) = "Error running mvn test: " ++ e₁ ∧
    summarize_coverage files root = "Error reading JaCoCo report: " ++ e₂ ∧
    suggest_junit_tests_for_class files' root' class_name =
      "Error reading " ++ classCandidate root' class_name ++ ": " ++ e₃ := by
  refine ⟨rfl, ?_, ?_⟩
  · simp [summarize_coverage, h]
  · simp [suggest_junit_tests_for_class, h']

theorem faults_returned_as_error_strings_witness :
    (probeReport [(jacocoPath1 "R", Except.error "bad xml")] (jacocoCandidates "R") =
      some (jacocoPath1 "R", Except.error "bad xml")) ∧
    (([(classCandidate "R" "a.b.C", (Except.error "io" : Except String String))] :
        List (String × Except String String)).lookup (classCandidate "R" "a.b.C") =
      some (Except.error "io")) ∧
    (run_maven_tests (.error "spawn failure") = "Error running mvn test: " ++ "spawn failure" ∧
    summarize_coverage [(jacocoPath1 "R", Except.error "bad xml")] "R" =
      "Error reading JaCoCo report: " ++ "bad xml" ∧
    suggest_junit_tests_for_class [(classCandidate "R" "a.b.C", Except.error "io")] "R" "a.b.C" =
      "Error reading " ++ classCandidate "R" "a.b.C" ++ ": " ++ "io") :=
  ⟨rfl, rfl, faults_returned_as_error_strings _ _ _ _ _ _ _ _ _ rfl rfl⟩

/-- C10: on a successfully parsed report the output is the header line
(containing the resolved report path) followed by exactly one line per
root-level counter, in document order. -/
theorem coverage_success_line_structure
    (files : List (String × Except String (List Counter)))
    (root p : String) (cs : List Counter)
    (h : probeReport files (jacocoCandidates root) = some (p, .ok cs)) :
    summarize_coverage files root =
      String.intercalate "\n" (("JaCoCo coverage summary from: " ++ p) :: cs.map counterLine) ∧
    (("JaCoCo coverage summary from: " ++ p) :: cs.map counterLine).length = cs.length + 1 ∧
    p.data <:+: ("JaCoCo coverage summary from: " ++ p).data ∧
    ∀ i : Nat, (cs.map counterLine)[i]? = (cs[i]?).map counterLine := by
  refine ⟨by simp [summarize_coverage, h], by simp, ?_, ?_⟩
  · exact ⟨"JaCoCo coverage summary from: ".data, [], by simp [String.data_append]⟩
  · intro i
    exact List.getElem?_map counterLine cs i

theorem coverage_success_line_structure_witness :
    (probeReport [(jacocoPath2 "R", Except.ok [⟨some "LINE", 45, 5⟩])] (jacocoCandidates "R") =
      some (jacocoPath2 "R", Except.ok [⟨some "LINE", 45, 5⟩])) ∧
    (summarize_coverage [(jacocoPath2 "R", Except.ok [⟨some "LINE", 45, 5⟩])] "R" =
      String.intercalate "\n"
        (("JaCoCo coverage summary from: " ++ jacocoPath2 "R")
          :: List.map counterLine [⟨some "LINE", 45, 5⟩]) ∧
    (("JaCoCo coverage summary from: " ++ jacocoPath2 "R")
        :: List.map counterLine [⟨some "LINE", 45, 5⟩]).length =
      ([⟨some "LINE", 45, 5⟩] : List Counter).length + 1 ∧
    (jacocoPath2 "R").data <:+:
      ("JaCoCo coverage summary from: " ++ jacocoPath2 "R").data ∧
    ∀ i : Nat, (List.map counterLine [⟨some "LINE", 45, 5⟩])[i]? =
      (([⟨some "LINE", 45, 5⟩] : List Counter)[i]?).map counterLine) :=
  ⟨rfl, coverage_success_line_structure _ "R" _ _ rfl⟩

theorem roundHalfEven_nonneg {q : ℚ} (h : 0 ≤ q) : 0 ≤ roundHalfEven q := by
  unfold roundHalfEven
  split
  · split
    · exact Int.floor_nonneg.mpr h
    · have := Int.floor_nonneg.mpr h
      omega
  · rw [round_eq]
    exact Int.floor_nonneg.mpr (by linarith)

theorem roundHalfEven_le {q : ℚ} {B : ℤ} (h : q ≤ (B : ℚ)) : roundHalfEven q ≤ B := by
  unfold roundHalfEven
  split
  · rename_i htie
    have hfl : (⌊q⌋ : ℚ) = q - 1 / 2 := by linarith
    have hlt : (⌊q⌋ : ℚ) < (B : ℚ) := by
      rw [hfl]
      linarith
    have hlt' : ⌊q⌋ < B := by exact_mod_cast hlt
    split
    · omega
    · omega
  · rw [round_eq, Int.floor_le_iff]
    linarith

/-- C1: for non-negative `covered`/`missed` attributes, the total is exactly
`covered + missed`, the percentage is `round(covered*100/total, 1)` for a
positive total and exactly `0` for a zero total (no division by zero), and
the percentage always lies in `[0, 100]`. -/
theorem coverage_total_and_percentage (covered missed : ℤ)
    (hc : 0 ≤ covered) (hm : 0 ≤ missed) :
    counterTotal covered missed = covered + missed ∧
    counterPct covered missed =
      (if covered + missed = 0 then 0
       else pyRound1 ((covered : ℚ) * 100 / ((covered : ℚ) + (missed : ℚ)))) ∧
    0 ≤ counterPct covered missed ∧ counterPct covered missed ≤ 100 := by
  have harg : ((covered + missed : ℤ) : ℚ) = (covered : ℚ) + (missed : ℚ) := by
    push_cast
    ring
  by_cases h0 : covered + missed = 0
  · have hz : counterPct covered missed = 0 := by
      unfold counterPct counterTotal
      rw [if_pos h0]
    refine ⟨rfl, ?_, ?_, ?_⟩
    · rw [hz, if_pos h0]
    · rw [hz]
    · rw [hz]
      norm_num
  · have hpos : (0 : ℤ) < covered + missed := lt_of_le_of_ne (by omega) (Ne.symm h0)
    have hposQ : (0 : ℚ) < (covered : ℚ) + (missed : ℚ) := by exact_mod_cast hpos
    have hcQ : (0 : ℚ) ≤ (covered : ℚ) := by exact_mod_cast hc
    have hmQ : (0 : ℚ) ≤ (missed : ℚ) := by exact_mod_cast hm
    have hpct : counterPct covered missed =
        (roundHalfEven ((covered : ℚ) * 100 / ((covered : ℚ) + (missed : ℚ)) * 10) : ℚ) / 10 := by
      unfold counterPct counterTotal pyRound1
      rw [if_neg h0, harg]
    have hq0 : 0 ≤ (covered : ℚ) * 100 / ((covered : ℚ) + (missed : ℚ)) * 10 := by
      apply mul_nonneg _ (by norm_num)
      apply div_nonneg _ (le_of_lt hposQ)
      linarith
    have hq1000 : (covered : ℚ) * 100 / ((covered : ℚ) + (missed : ℚ)) * 10 ≤
        ((1000 : ℤ) : ℚ) := by
      rw [div_mul_eq_mul_div, div_le_iff₀ hposQ]
      push_cast
      linarith
    have hn0 : 0 ≤ roundHalfEven ((covered : ℚ) * 100 / ((covered : ℚ) + (missed : ℚ)) * 10) :=
      roundHalfEven_nonneg hq0
    have hn1000 :
        roundHalfEven ((covered : ℚ) * 100 / ((covered : ℚ) + (missed : ℚ)) * 10) ≤ 1000 :=
      roundHalfEven_le hq1000
    refine ⟨rfl, ?_, ?_, ?_⟩
    · rw [if_neg h0]
      unfold counterPct counterTotal
      rw [if_neg h0, harg]
    · rw [hpct]
      apply div_nonneg _ (by norm_num)
      exact_mod_cast hn0
    · rw [hpct, div_le_iff₀ (by norm_num : (0 : ℚ) < 10)]
      have hcast : ((roundHalfEven ((covered : ℚ) * 100 /
          ((covered : ℚ) + (missed : ℚ)) * 10) : ℤ) : ℚ) ≤ ((1000 : ℤ) : ℚ) := by
        exact_mod_cast hn1000
      push_cast at hcast ⊢
      linarith

theorem coverage_total_and_percentage_witness :
    (0 ≤ (45 : ℤ)) ∧ (0 ≤ (5 : ℤ)) ∧ counterPct 45 5 = 90 ∧
    (counterTotal 45 5 = 45 + 5 ∧
     counterPct 45 5 =
       (if (45 : ℤ) + 5 = 0 then 0
        else pyRound1 (((45 : ℤ) : ℚ) * 100 / (((45 : ℤ) : ℚ) + ((5 : ℤ) : ℚ)))) ∧
     0 ≤ counterPct 45 5 ∧ counterPct 45 5 ≤ 100) := by
  have hval : counterPct 45 5 = 90 := by
    have hne : ¬counterTotal (45 : ℤ) 5 = 0 := by norm_num [counterTotal]
    have h1 : ((45 : ℤ) : ℚ) * 100 / ((counterTotal (45 : ℤ) 5 : ℤ) : ℚ) * 10 = 900 := by
      norm_num [counterTotal]
    unfold counterPct pyRound1
    rw [if_neg hne, h1]
    unfold roundHalfEven
    rw [if_neg (by norm_num)]
    rw [show round (900 : ℚ) = 900 by
      rw [show (900 : ℚ) = ((900 : ℤ) : ℚ) by norm_num, round_intCast]]
    norm_num
  exact ⟨by norm_num, by norm_num, hval,
    coverage_total_and_percentage 45 5 (by norm_num) (by norm_num)⟩

set_option maxRecDepth 40000 in
/-- C4: for the class name `a.b.C`, resolved to a source file whose only
public methods are `public int foo(int x)` and `public void bar()`, the
extractor returns exactly `["bar", "foo"]` (sorted), and the generated
skeleton declares the class `CGeneratedTest` with exactly two `@Test`
placeholder methods `test_bar` and `test_foo`. -/
theorem example_class_abc_skeleton :
    extractedMethodNames
        "package a.b;\n\npublic class C \x7b\n    public int foo(int x) \x7b return x; \x7d\n    public void bar() \x7b \x7d\n\x7d\n" =
      ["bar", "foo"] ∧
    suggest_junit_tests_for_class
        [(classCandidate "R" "a.b.C",
          Except.ok
            "package a.b;\n\npublic class C \x7b\n    public int foo(int x) \x7b return x; \x7d\n    public void bar() \x7b \x7d\n\x7d\n")]
        "R" "a.b.C" =
      "Suggested JUnit 4 test skeletons for a.b.C:\n\n```java\nimport org.junit.Test;\nimport static org.junit.Assert.*;\nimport a.b.C;\n\npublic class CGeneratedTest \x7b\n\n    @Test\n    public void test_bar() \x7b\n        // TODO: arrange inputs\n        // a.b.C obj = new C();\n        // Object result = obj.bar(/* args */);\n        // assertNotNull(result);\n    \x7d\n\n    @Test\n    public void test_foo() \x7b\n        // TODO: arrange inputs\n        // a.b.C obj = new C();\n        // Object result = obj.foo(/* args */);\n        // assertNotNull(result);\n    \x7d\n\n\x7d\n```" :=
  ⟨by decide, by decide⟩

theorem extracted_names_sorted_and_unique_witness :
    ("foo" ∈ findCaptures "public int foo() \x7b\x7d public void foo(int x) \x7b\x7d".data) ∧
    (extractedMethodNames "public int foo() \x7b\x7d public void foo(int x) \x7b\x7d").count
      "foo" = 1 :=
  ⟨by decide,
    (extracted_names_sorted_and_unique
      "public int foo() \x7b\x7d public void foo(int x) \x7b\x7d").2.2.2 "foo" (by decide)⟩
